import Mathlib

/-!
Verification development for the ValueSet-Converters repository.

The embedding models, from the source files
value_set_vsac_to_json/main.py and value_set_vsac_json_to_n3c_json/vsac_api.py:
  - Python string primitives used by the code (str.split on a literal
    separator, str.join, str.format with positional slots, slicing, int()),
  - the VSAC record shape consumed by the converters,
  - the converters vsac_to_fhir and vsac_to_vsac,
  - the tabular flattener get_csv,
  - the ticket client get_ticket_granting_ticket / get_service_ticket,
  - the cache branch of run, and the cache serialization round trip.

Machine-level effects (HTTP transport, HTML parsing by BeautifulSoup, the
filesystem) are modelled as explicit inputs; everything the repository
computes on those inputs is translated directly from the source.
-/

/-! ## Python string primitives -/

/-- True when sep is an initial segment of l. Helper for the embedding of
Python str.split. -/
def isPre (sep l : List Char) : Bool := decide (l.take sep.length = sep)

/-- Fuel-indexed splitter on character lists: the embedding of Python
str.split(sep) for a non-empty separator, scanning left to right and
taking the leftmost non-overlapping matches. The fuel argument only makes
the recursion structural; with fuel above the list length it never runs out
because every step consumes at least one character. -/
def splitAux (sep : List Char) : Nat → List Char → List (List Char)
  | 0, l => [l]
  | Nat.succ fuel, l =>
    match l with
    | [] => [[]]
    | c :: cs =>
      if isPre sep (c :: cs) then
        [] :: splitAux sep fuel ((c :: cs).drop sep.length)
      else
        match splitAux sep fuel cs with
        | [] => [[c]]
        | g :: gs => (c :: g) :: gs

/-- Embedding of Python s.split(sep) for a non-empty literal separator. -/
def pySplit (s sep : String) : List String :=
  (splitAux sep.data (s.data.length + 1) s.data).map String.mk

/-- Embedding of Python sep.join(xs). -/
def pyJoin (sep : String) : List String → String
  | [] => ""
  | [x] => x
  | x :: xs => x ++ sep ++ pyJoin sep xs

/-- Embedding of the Python slice s[0:-n] (drop the last n characters). -/
def pyDropRight (s : String) (n : Nat) : String :=
  String.mk (s.data.take (s.data.length - n))

/-- A single-quote character, written by code point. -/
def sglQuote : String := String.singleton (Char.ofNat 39)

/-- Embedding of Python str() applied to a list of strings: the repr form
with square brackets, single quotes and comma-space separators (escaping of
quote characters inside the items is not modelled; the inputs it is applied
to contain none). -/
def pyReprStrList (xs : List String) : String :=
  "[" ++ pyJoin ", " (xs.map (fun s => sglQuote ++ s ++ sglQuote)) ++ "]"

/-- The empty positional format slot of Python str.format, written by code
points. -/
def phBrace : String := "\x7b\x7d"

/-- Embedding of Python s.format(arg) for templates whose only brace use is
empty positional slots: zero slots return the template unchanged, one slot
is replaced by arg, two or more slots raise IndexError (modelled as none). -/
def pyFormat1 (s arg : String) : Option String :=
  match pySplit s phBrace with
  | [_] => some s
  | [a, b] => some (a ++ arg ++ b)
  | _ => none

/-- Digit-list accumulator for the embedding of Python int(). -/
def pyToNatAux : List Char → Nat → Option Nat
  | [], acc => some acc
  | c :: cs, acc =>
    if 48 ≤ c.toNat ∧ c.toNat ≤ 57 then
      pyToNatAux cs (acc * 10 + (c.toNat - 48))
    else
      none

/-- Embedding of Python int(s) on plain decimal strings (an optional minus
sign followed by digits); anything else raises ValueError, modelled as
none. -/
def pyToInt (s : String) : Option Int :=
  match s.data with
  | [] => none
  | c :: cs =>
    if c = '-' then
      match cs with
      | [] => none
      | _ => (pyToNatAux cs 0).map (fun n => -(n : Int))
    else
      (pyToNatAux s.data 0).map (fun n => (n : Int))

/-! ## Python values and dictionaries -/

/-- A leaf value of the JSON dictionaries the converters build: a string,
an integer, None, or a list of strings. -/
inductive PyLeaf where
  | ls : String → PyLeaf
  | li : Int → PyLeaf
  | lnull : PyLeaf
  | lstrs : List String → PyLeaf
deriving DecidableEq, Repr

/-- A one-level dictionary of leaf values. -/
abbrev PyObj := List (String × PyLeaf)

/-- A value of a converter output dictionary: a leaf, a nested one-level
dictionary, or a list of one-level dictionaries. -/
inductive PyVal where
  | leaf : PyLeaf → PyVal
  | obj : PyObj → PyVal
  | objList : List PyObj → PyVal
deriving DecidableEq, Repr

/-- A converter output dictionary: insertion-ordered keyed entries, as a
Python dict literal. -/
abbrev PyDict := List (String × PyVal)

/-- Embedding of Python d[k] on a dictionary: the value at the first entry
with key k, none when the key is absent (KeyError). -/
def pyGet (d : PyDict) (k : String) : Option PyVal :=
  (d.find? (fun p => p.1 = k)).map (fun p => p.2)

/-! ## The VSAC record shape -/

/-- One concept entry of a VSAC record: the fields at keys [at]code and
[at]codeSystemName of an entry of ConceptList.Concept. -/
structure VsConcept where
  code : String
  codeSystemName : String
deriving DecidableEq, Repr

/-- A raw VSAC value-set record, with the fields read by the converters:
displayName, ID, version (attribute keys), Source, Type, RevisionDate,
Purpose (ns0-prefixed keys), and the concept entries of
ConceptList.Concept. -/
structure VsacRecord where
  displayName : String
  oid : String
  version : String
  source : String
  typ : String
  revisionDate : String
  purpose : String
  concepts : List VsConcept
deriving DecidableEq, Repr

/-! ## vsac_to_vsac (main.py lines 45-83) -/

/-- Embedding of vsac_to_vsac: splits the Purpose field on the literal
delimiter close-paren-comma, then extracts each of the four Intention
labels from purposes[0] by splitting the FIRST clause on the label text
and indexing [1]; an out-of-range index (IndexError) is modelled as none.
The Created At field is the format template applied to the supplied
date string and the revision date. -/
def vsac_to_vsac (nowYmd : String) (v : VsacRecord) : Option PyDict :=
  let purposes := pySplit v.purpose "),"
  let p0 := purposes.headD ""
  match (pySplit p0 "(Clinical Focus: ").get? 1,
        (pySplit p0 "(Inclusion Criteria: ").get? 1,
        (pySplit p0 "(Data Element Scope: ").get? 1,
        (pySplit p0 "(Exclusion Criteria: ").get? 1 with
  | some cf, some ic, some des, some ec =>
    some [
      ("Concept Set Name", .leaf (.ls v.displayName)),
      ("Created At", .leaf (.ls
        ("vsacToOmopConversion:" ++ nowYmd ++ "; vsacRevision:" ++ v.revisionDate))),
      ("Created By", .leaf (.ls v.source)),
      ("Intention", .obj [
        ("Clinical Focus", .ls cf),
        ("Inclusion Criteria", .ls ic),
        ("Data Element Scope", .ls des),
        ("Exclusion Criteria", .ls ec)]),
      ("Limitations", .obj [
        ("Exclusion Criteria", .ls ""),
        ("VSAC Note", .lnull)]),
      ("Provenance", .obj [
        ("VSAC Steward", .ls ""),
        ("OID", .ls ""),
        ("Code System(s)", .lstrs []),
        ("Definition Type", .ls ""),
        ("Definition Version", .ls "")])
    ]
  | _, _, _, _ => none

/-! ## vsac_to_fhir (main.py lines 24-39)

The function copies the static FHIR_JSON_TEMPLATE with copy(), a SHALLOW
copy: the top-level dictionary is fresh, but the nested dictionaries at
keys text and compose (and the include list inside compose) are the very
objects of the shared template. Assignments to d[k] for a top-level key k
rebind only the fresh dictionary, while assignments through
d[text][div] and d[compose][include][0][...] mutate the shared template
in place and are therefore visible to later calls. The embedding makes
that shared mutable part an explicit state value threaded through calls.
The template contents are modelled from the spec (the constants module is
not under src/): a static template whose text.div and url slots each hold
one positional format slot. -/

/-- The record shape read by vsac_to_fhir: each field is the list stored
under the corresponding valueSet.* key, indexed [0] by the code. -/
structure FhirRecord where
  id : List String
  name : List String
  description : List String
  status : List String
  codeSystem : List String
  codeSystemVersion : List String
deriving DecidableEq, Repr

/-- The mutable nested part of the shared FHIR template: the text.div
string and the fields of compose.include[0]. -/
structure FhirTemplateState where
  textDiv : String
  includeSystem : String
  includeVersion : String
  includeConcept : List String
deriving DecidableEq, Repr

/-- Modelled from the spec: the initial value of the static template
FHIR_JSON_TEMPLATE (definitions/constants.py, not under src/) restricted
to its shared mutable part; its text.div slot holds one positional format
slot. -/
def FHIR_TEMPLATE0 : FhirTemplateState :=
  { textDiv := "<div>\x7b\x7d</div>", includeSystem := "", includeVersion := "",
    includeConcept := [] }

/-- Modelled from the spec: the url entry of the static template, a fixed
identifier template with one positional slot for the value-set id. The
top-level url key is rebound on the fresh copy, so it is a constant, not
state. -/
def FHIR_URL_TEMPLATE : String := "http://fhir.org/ValueSet/\x7b\x7d"

/-- Embedding of vsac_to_fhir: reads the [0] element of each valueSet.*
field (IndexError modelled as none), converts the id with int(), formats
the shared text.div and the url template, and assigns the first code
system and version into the shared compose.include[0]. Returns the
template state after the call together with the output dictionary;
compose is rendered as the one-element include list. -/
def vsac_to_fhir (st : FhirTemplateState) (v : FhirRecord) :
    Option (FhirTemplateState × PyDict) :=
  match v.id.get? 0, v.description.get? 0, v.name.get? 0, v.status.get? 0,
        v.codeSystem.get? 0, v.codeSystemVersion.get? 0 with
  | some id0, some desc, some nm, some stt, some cs, some csv =>
    match pyToInt id0, pyFormat1 st.textDiv desc, pyFormat1 FHIR_URL_TEMPLATE id0 with
    | some idInt, some newDiv, some url =>
      some ({ textDiv := newDiv, includeSystem := cs, includeVersion := csv,
              includeConcept := [] },
        [("id", .leaf (.li idInt)),
         ("text", .obj [("div", .ls newDiv)]),
         ("url", .leaf (.ls url)),
         ("name", .leaf (.ls nm)),
         ("title", .leaf (.ls nm)),
         ("status", .leaf (.ls stt)),
         ("description", .leaf (.ls desc)),
         ("compose", .objList [[("system", .ls cs), ("version", .ls csv),
                                ("concept", .lstrs [])]])])
    | _, _, _ => none
  | _, _, _, _, _, _ => none

/-! ## get_csv (main.py lines 86-129) -/

/-- One step of the grouping loop of get_csv: append the code under its
code-system key, creating the key at the end on first sight, exactly as
the Python dict insertion does. -/
def addCode (acc : List (String × List String)) (cs code : String) :
    List (String × List String) :=
  if acc.any (fun p => p.1 = cs) then
    acc.map (fun p => if p.1 = cs then (p.1, p.2 ++ [code]) else p)
  else
    acc ++ [(cs, [code])]

/-- The code_system_codes dictionary built by get_csv for one record:
codes grouped by code-system name in first-appearance order. -/
def groupCodes (l : List VsConcept) : List (String × List String) :=
  l.foldl (fun acc c => addCode acc c.codeSystemName c.code) []

/-- The provenance sub-dictionary of one output row of get_csv. -/
structure CsvProv where
  steward : String
  oid : String
  codeSystems : String
  defType : String
  defVersion : String
  accessed : String
deriving DecidableEq, Repr

/-- One output row of get_csv. -/
structure CsvRow where
  name : String
  nameVSAC : String
  oid : String
  codeSystem : String
  codes : String
  limitations : String
  intention : String
  provenance : CsvProv
deriving DecidableEq, Repr

/-- A Python for-loop that builds a list and lets an exception escape:
applies f left to right, stopping at the first failure. -/
def mapOpt {α β : Type} (f : α → Option β) : List α → Option (List β)
  | [] => some []
  | a :: l => (f a).bind (fun b => (mapOpt f l).map (fun bs => b :: bs))

/-- The row dictionary built in the body of the inner loop of get_csv.
nowFull stands for str(datetime.now()); the source calls it once per row,
modelled as a single supplied value. -/
def mkCsvRow (nowFull codeDelim : String) (v : VsacRecord)
    (purposes : List String) (groups : List (String × List String))
    (p3 : String) (p : String × List String) : CsvRow :=
  { name := v.displayName,
    nameVSAC := "[VSAC] " ++ v.displayName,
    oid := v.oid,
    codeSystem := p.1,
    codes := pyJoin codeDelim p.2,
    limitations := p3,
    intention := pyReprStrList (purposes.take 2),
    provenance := {
      steward := v.source,
      oid := v.oid,
      codeSystems := pyJoin "," (groups.map (fun q => q.1)),
      defType := v.typ,
      defVersion := v.version,
      accessed := pyDropRight nowFull 7 } }

/-- The rows get_csv emits for one record: one row per entry of the
grouping dictionary, in insertion order. Each row reads purposes[3]
(IndexError when the Purpose splits into fewer than four clauses, modelled
as none; as in the source it is only evaluated when a row is actually
built). -/
def rowsForRecord (nowFull codeDelim : String) (v : VsacRecord) :
    Option (List CsvRow) :=
  let purposes := pySplit v.purpose "),"
  let groups := groupCodes v.concepts
  mapOpt (fun (p : String × List String) =>
    (purposes.get? 3).map (fun p3 => mkCsvRow nowFull codeDelim v purposes groups p3 p))
    groups

/-- Embedding of get_csv: the concatenated rows over all records (the
DataFrame contents; writing the file is I/O outside the embedding). -/
def get_csv (nowFull codeDelim : String) (vs : List VsacRecord) :
    Option (List CsvRow) :=
  (mapOpt (rowsForRecord nowFull codeDelim) vs).map List.flatten

/-! ## The JSON write step of run (main.py lines 183-190) -/

/-- The file name chosen by the JSON write loop of run for one converted
dictionary: d[name] + the .json extension. A missing name key (KeyError)
or a non-string value (TypeError on +) is modelled as none: the run
crashes and writes no file for any record. -/
def json_write_name (d : PyDict) : Option String :=
  match pyGet d "name" with
  | some (.leaf (.ls s)) => some (s ++ ".json")
  | _ => none

/-! ## Ticket client (vsac_api.py) -/

/-- An outgoing form-encoded HTTP POST request. -/
structure HttpRequest where
  url : String
  formData : List (String × String)
deriving DecidableEq, Repr

/-- An HTTP response: status code and body text. -/
structure HttpResponse where
  status : Nat
  text : String
deriving DecidableEq, Repr

/-- The request built by get_service_ticket (vsac_api.py lines 40-45): the
tickets endpoint with the ticket-granting ticket appended to the url and
the fixed service form field. -/
def service_ticket_request (tgt : String) : HttpRequest :=
  { url := "https://utslogin.nlm.nih.gov/cas/v1/tickets/" ++ tgt,
    formData := [("service", "http://umlsks.nlm.nih.gov")] }

/-- Embedding of get_service_ticket (vsac_api.py lines 31-48): posts the
ticket request through the supplied transport and returns response2.text,
the response body, with no inspection of the status code or of the body.
The transport is an explicit function argument; the source never branches
after receiving the response. -/
def get_service_ticket (send : HttpRequest → HttpResponse) (tgt : String) : String :=
  (send (service_ticket_request tgt)).text

/-- A status code in the HTTP success class. -/
def is2xx (n : Nat) : Prop := 200 ≤ n ∧ n < 300

instance (n : Nat) : Decidable (is2xx n) := by unfold is2xx; infer_instance

/-- Structural splitter on a single separator character; the embedding of
Python path.split(sep) for one-character separators, used by the
ticket-granting extraction. -/
def splitListOn (sep : Char) : List Char → List (List Char)
  | [] => [[]]
  | c :: cs =>
    if c = sep then [] :: splitListOn sep cs
    else
      match splitListOn sep cs with
      | [] => [[c]]
      | g :: gs => (c :: g) :: gs

/-- Interleaves the separator character back between groups; the
left inverse of splitListOn used in its correctness lemmas. -/
def joinSepChar (sep : Char) : List (List Char) → List Char
  | [] => []
  | [g] => g
  | g :: gs => g ++ sep :: joinSepChar sep gs

/-- The URL text after the scheme separator, when one is present. -/
def urlNoScheme (u : String) : String :=
  match pySplit u "://" with
  | [] => u
  | [s] => s
  | _ :: rest => pyJoin "://" rest

/-- The scheme-free URL with its fragment and query parts stripped:
authority followed by the path. -/
def urlBase (u : String) : String :=
  (pySplit ((pySplit (urlNoScheme u) "#").headD "") "?").headD ""

/-- Embedding of urllib3.util.parse_url(u).path for the URL shapes the
ticket client handles: the text after the scheme separator, with fragment
and query stripped, from its first slash on; none when that text holds no
slash (parse_url yields a None path there, and the caller crashes on it). -/
def urlPath (u : String) : Option String :=
  match splitListOn '/' (urlBase u).data with
  | [] => none
  | [_] => none
  | _ :: rest => some (String.mk ('/' :: joinSepChar '/' rest))

/-- The authentication response as seen by get_ticket_granting_ticket
after BeautifulSoup (an external library) has parsed the HTML body:
formAction is the action attribute of the first form element, none when
there is no form or no action attribute (the source then crashes on the
attribute access). -/
structure AuthResponse where
  formAction : Option String
deriving DecidableEq, Repr

/-- Embedding of get_ticket_granting_ticket (vsac_api.py lines 16-28): the
last element of the slash-split of the path of the action URL of the form
in the response body. -/
def get_ticket_granting_ticket (r : AuthResponse) : Option String :=
  r.formAction.bind (fun u =>
    (urlPath u).map (fun p => String.mk ((splitListOn '/' p.data).getLastD [])))

/-! ## The cache branch of run (main.py lines 145-168) -/

/-- The observable outcome of the cache branch of run: the record list the
conversion stage receives, whether the network fetch path ran (spreadsheet
read, ticket-granting call and batched value-set call all live in that
branch and only there), and the cache file contents afterwards. -/
structure CacheOutcome where
  records : List VsacRecord
  fetchedFromNetwork : Bool
  cacheFileAfter : Option (List VsacRecord)
deriving DecidableEq, Repr

/-- Embedding of the cache branch of run: when use_cache is set and the
pickle file exists its contents are loaded and the fetch branch is
skipped; otherwise use_cache is cleared, the fetch branch runs and its
result is pickled over the cache file. The fetched argument stands for
the records the network fetch would return. -/
def runCacheStep (useCache : Bool) (cacheFile : Option (List VsacRecord))
    (fetched : List VsacRecord) : CacheOutcome :=
  match useCache, cacheFile with
  | true, some v => { records := v, fetchedFromNetwork := false, cacheFileAfter := some v }
  | true, none =>
    { records := fetched, fetchedFromNetwork := true, cacheFileAfter := some fetched }
  | false, _ =>
    { records := fetched, fetchedFromNetwork := true, cacheFileAfter := some fetched }

/-! ## Cache serialization (main.py lines 150 and 167-168)

Modelled from the spec: pickle.dump and pickle.load are the Python
standard library serializer, not code under src/; the spec states the
round-trip contract (writing then reading the cache file yields a record
list equal by value to the one fetched). The model serializes the record
list into a flat number stream: every string is length-prefixed, lists
are count-prefixed. -/

/-- Serialize one string: its length followed by its character codes. -/
def encStr (s : String) : List Nat := s.data.length :: s.data.map Char.toNat

/-- Deserialize one string from the front of the stream, returning the
remainder. -/
def decStr : List Nat → Option (String × List Nat)
  | [] => none
  | n :: rest =>
    if n ≤ rest.length then
      some (String.mk ((rest.take n).map Char.ofNat), rest.drop n)
    else none

/-- Serialize a list: its length followed by the serialized elements. -/
def encList {α : Type} (enc : α → List Nat) (l : List α) : List Nat :=
  l.length :: (l.map enc).flatten

/-- Deserialize a counted sequence of elements from the front of the
stream. -/
def decListAux {α : Type} (dec : List Nat → Option (α × List Nat)) :
    Nat → List Nat → Option (List α × List Nat)
  | 0, rest => some ([], rest)
  | Nat.succ n, rest =>
    (dec rest).bind (fun p =>
      (decListAux dec n p.2).map (fun q => (p.1 :: q.1, q.2)))

/-- Serialize one concept entry. -/
def encConcept (c : VsConcept) : List Nat := encStr c.code ++ encStr c.codeSystemName

/-- Deserialize one concept entry. -/
def decConcept (l : List Nat) : Option (VsConcept × List Nat) :=
  (decStr l).bind (fun p => (decStr p.2).map (fun q => (⟨p.1, q.1⟩, q.2)))

/-- Serialize one record. -/
def encRecord (v : VsacRecord) : List Nat :=
  encStr v.displayName ++ encStr v.oid ++ encStr v.version ++ encStr v.source ++
  encStr v.typ ++ encStr v.revisionDate ++ encStr v.purpose ++
  encList encConcept v.concepts

/-- Deserialize one record. -/
def decRecord (l : List Nat) : Option (VsacRecord × List Nat) :=
  (decStr l).bind (fun p1 =>
  (decStr p1.2).bind (fun p2 =>
  (decStr p2.2).bind (fun p3 =>
  (decStr p3.2).bind (fun p4 =>
  (decStr p4.2).bind (fun p5 =>
  (decStr p5.2).bind (fun p6 =>
  (decStr p6.2).bind (fun p7 =>
    match p7.2 with
    | [] => none
    | n :: rest =>
      (decListAux decConcept n rest).map (fun q =>
        (⟨p1.1, p2.1, p3.1, p4.1, p5.1, p6.1, p7.1, q.1⟩, q.2)))))))))

/-- Modelled from the spec: pickle.dump of the fetched record list into
the cache file. -/
def pickle_dump (vs : List VsacRecord) : List Nat := encList encRecord vs

/-- Modelled from the spec: pickle.load of the cache file back into a
record list. -/
def pickle_load (bs : List Nat) : Option (List VsacRecord) :=
  match bs with
  | [] => none
  | n :: rest => (decListAux decRecord n rest).map (fun q => q.1)

/-! ## Concrete inputs used by the claim theorems -/

/-- The documented Purpose format: the four labeled clauses in order,
separated by the close-paren-comma delimiter (the end-to-end example of
the spec and the comment at main.py line 49). -/
def asthmaPurpose : String :=
  "(Clinical Focus: asthma),(Inclusion Criteria: snomed),(Data Element Scope: condition),(Exclusion Criteria: none)"

/-- The end-to-end example record of the spec: display name Asthma SCT,
the four-clause purpose, and two SNOMEDCT concepts 123 and 456. -/
def asthmaRecord : VsacRecord :=
  { displayName := "Asthma SCT", oid := "2.16.840.1.113762.1.4.1195",
    version := "20200421", source := "AAA", typ := "Grouping",
    revisionDate := "2020-04-21", purpose := asthmaPurpose,
    concepts := [⟨"123", "SNOMEDCT"⟩, ⟨"456", "SNOMEDCT"⟩] }

/-- A purpose whose FIRST delimiter-clause happens to contain all four
label texts: the only shape on which the Intention extraction of
vsac_to_vsac completes. -/
def oneClausePurpose : String :=
  "(Clinical Focus: a (Inclusion Criteria: b (Data Element Scope: c (Exclusion Criteria: d)"

/-- A record vsac_to_vsac succeeds on. -/
def oneClauseRecord : VsacRecord :=
  { displayName := "Odd Set", oid := "1.2.3.4", version := "1", source := "NLM",
    typ := "Extensional", revisionDate := "2021-01-01",
    purpose := oneClausePurpose, concepts := [⟨"99", "ICD10CM"⟩] }

/-- A first FHIR-shaped record. -/
def fhirRec1 : FhirRecord :=
  { id := ["1"], name := ["Asthma"], description := ["first description"],
    status := ["active"], codeSystem := ["SNOMEDCT"], codeSystemVersion := ["2020-03"] }

/-- A second FHIR-shaped record with a different description. -/
def fhirRec2 : FhirRecord :=
  { id := ["2"], name := ["Diabetes"], description := ["second description"],
    status := ["active"], codeSystem := ["ICD10CM"], codeSystemVersion := ["2021"] }

/-! ## Claim theorems -/

/-- C1 (code bug): on a record whose Purpose holds the four labeled
clauses in order separated by the delimiter, vsac_to_vsac does NOT return
the per-clause texts: it searches every label inside the first clause
only, so the Inclusion Criteria lookup raises IndexError and the
conversion crashes (modelled as none). The first conjunct checks that the
purpose does split into exactly the four expected clauses. -/
theorem C1_vsac_to_vsac_crashes_on_labeled_clauses :
    pySplit asthmaRecord.purpose "),"  =
      ["(Clinical Focus: asthma", "(Inclusion Criteria: snomed",
       "(Data Element Scope: condition", "(Exclusion Criteria: none)"] ∧
    vsac_to_vsac "2022/06/15" asthmaRecord = none := by decide

/-- C2 (code bug): vsac_to_fhir is not free of cross-record state. The
template copy is shallow, so the text.div slot consumed by the first
conversion stays consumed: converting fhirRec2 right after fhirRec1
leaves the FIRST record description in text.div, while converting
fhirRec2 from the pristine template embeds its own description. -/
theorem C2_vsac_to_fhir_cross_record_leak :
    ((vsac_to_fhir FHIR_TEMPLATE0 fhirRec1).bind (fun p =>
        (vsac_to_fhir p.1 fhirRec2).map (fun q => pyGet q.2 "text")))
      = some (some (.obj [("div", .ls "<div>first description</div>")])) ∧
    ((vsac_to_fhir FHIR_TEMPLATE0 fhirRec2).map (fun q => pyGet q.2 "text"))
      = some (some (.obj [("div", .ls "<div>second description</div>")])) := by decide

/-- C4 counterexample: get_service_ticket does not fail on a non-2xx
status or an empty body; it returns the body in both situations (the
source never inspects response2 beyond reading text). -/
theorem C4_no_failure_on_bad_response :
    ¬ is2xx 500 ∧
    get_service_ticket (fun _ => { status := 500, text := "Internal Server Error" })
      "TGT-1" = "Internal Server Error" ∧
    get_service_ticket (fun _ => { status := 200, text := "" }) "TGT-2" = "" := by
  decide

/-- C4 amended: get_service_ticket returns exactly the response body of
the ticket request as plain text, unconditionally, with no status or
emptiness check. -/
theorem C4_get_service_ticket_is_body (send : HttpRequest → HttpResponse)
    (tgt : String) :
    get_service_ticket send tgt = (send (service_ticket_request tgt)).text := rfl

/-- C5 (code bug): in JSON artifact mode with the OMOP converter, the
write loop reads d[name] but the OMOP dictionary has no name key (its
display-name key is Concept Set Name), so the write step raises KeyError
and writes no file, even for a record the converter succeeds on; the
FHIR-format output, by contrast, does get a file named after its name
field. -/
theorem C5_omop_write_step_keyerror :
    vsac_to_vsac "2022/06/15" oneClauseRecord ≠ none ∧
    ((vsac_to_vsac "2022/06/15" oneClauseRecord).bind json_write_name) = none ∧
    ((vsac_to_fhir FHIR_TEMPLATE0 fhirRec1).map (fun q => json_write_name q.2))
      = some (some "Asthma.json") := by decide

/-- C6 (confirmed): with caching enabled and a cache file present, run
takes the records from the cache and the fetch branch (the only site of
the spreadsheet read, the grant request and the value-set call) does not
run; with the file absent or caching disabled, the fetch branch runs and
its result is written over the cache file. -/
theorem C6_runCacheStep_spec (v f : List VsacRecord)
    (c : Option (List VsacRecord)) :
    runCacheStep true (some v) f =
      { records := v, fetchedFromNetwork := false, cacheFileAfter := some v } ∧
    runCacheStep true none f =
      { records := f, fetchedFromNetwork := true, cacheFileAfter := some f } ∧
    runCacheStep false c f =
      { records := f, fetchedFromNetwork := true, cacheFileAfter := some f } := by
  refine ⟨rfl, rfl, ?_⟩
  cases c <;> rfl

/-- C10 (confirmed): whenever vsac_to_vsac returns a dictionary, its
Limitations and Provenance entries are fixed constants carrying no record
data. -/
theorem C10_constant_limitations_provenance (nowYmd : String)
    (v : VsacRecord) (d : PyDict) (h : vsac_to_vsac nowYmd v = some d) :
    pyGet d "Limitations" =
      some (.obj [("Exclusion Criteria", .ls ""), ("VSAC Note", .lnull)]) ∧
    pyGet d "Provenance" =
      some (.obj [("VSAC Steward", .ls ""), ("OID", .ls ""),
                  ("Code System(s)", .lstrs []), ("Definition Type", .ls ""),
                  ("Definition Version", .ls "")]) := by
  unfold vsac_to_vsac at h
  dsimp only at h
  split at h
  · cases h
    exact ⟨rfl, rfl⟩
  · exact Option.noConfusion h

/-- The dictionary vsac_to_vsac returns on oneClauseRecord. -/
def omopOutEx : PyDict := (vsac_to_vsac "2022/06/15" oneClauseRecord).getD []

/-- C10 witness: the constants theorem instantiated on a record the
converter succeeds on. -/
theorem C10_witness :
    vsac_to_vsac "2022/06/15" oneClauseRecord = some omopOutEx ∧
    (pyGet omopOutEx "Limitations" =
      some (.obj [("Exclusion Criteria", .ls ""), ("VSAC Note", .lnull)]) ∧
    pyGet omopOutEx "Provenance" =
      some (.obj [("VSAC Steward", .ls ""), ("OID", .ls ""),
                  ("Code System(s)", .lstrs []), ("Definition Type", .ls ""),
                  ("Definition Version", .ls "")])) :=
  ⟨by decide, C10_constant_limitations_provenance "2022/06/15" oneClauseRecord
    omopOutEx (by decide)⟩

/-! ## Grouping lemmas for get_csv -/

/-- The names not yet in seen, each kept at its first occurrence. -/
def dedupSeen (seen : List String) : List String → List String
  | [] => []
  | x :: xs => if x ∈ seen then dedupSeen seen xs else x :: dedupSeen (x :: seen) xs

/-- The distinct names of a list, each kept at its first occurrence: the
key order of a Python dict filled in list order. -/
def dedupFirst (l : List String) : List String := dedupSeen [] l

/-- The keys of a grouping accumulator, in order. -/
def keysOf (acc : List (String × List String)) : List String :=
  acc.map (fun p => p.1)

/-- The code list stored under key s, empty when the key is absent. -/
def lkGroups (acc : List (String × List String)) (s : String) : List String :=
  match acc.find? (fun p => p.1 = s) with
  | some p => p.2
  | none => []

theorem dedupSeen_congr (l : List String) :
    ∀ s1 s2, (∀ y, y ∈ s1 ↔ y ∈ s2) → dedupSeen s1 l = dedupSeen s2 l := by
  induction l with
  | nil => intro s1 s2 _; rfl
  | cons x xs ih =>
    intro s1 s2 h
    by_cases hx : x ∈ s1
    · rw [dedupSeen, dedupSeen, if_pos hx, if_pos ((h x).mp hx)]
      exact ih s1 s2 h
    · rw [dedupSeen, dedupSeen, if_neg hx, if_neg (fun c => hx ((h x).mpr c))]
      exact congrArg (List.cons x)
        (ih _ _ (fun y => by simp only [List.mem_cons, h y]))

theorem any_key_iff (acc : List (String × List String)) (cs : String) :
    (acc.any (fun p => p.1 = cs) = true) ↔ cs ∈ keysOf acc := by
  simp [keysOf, List.any_eq_true, List.mem_map]

theorem keysOf_addCode (acc : List (String × List String)) (cs code : String) :
    keysOf (addCode acc cs code) =
      if cs ∈ keysOf acc then keysOf acc else keysOf acc ++ [cs] := by
  unfold addCode
  by_cases hmem : cs ∈ keysOf acc
  · rw [if_pos ((any_key_iff acc cs).mpr hmem), if_pos hmem]
    unfold keysOf
    rw [List.map_map]
    exact List.map_congr_left (fun p _ => by dsimp only [Function.comp]; split <;> rfl)
  · have hA : acc.any (fun p => p.1 = cs) = false := by
      cases h2 : acc.any (fun p => p.1 = cs) with
      | true => exact absurd ((any_key_iff acc cs).mp h2) hmem
      | false => rfl
    rw [if_neg (by simp [hA]), if_neg hmem]
    simp [keysOf]

theorem keysOf_foldl (l : List VsConcept) :
    ∀ acc, keysOf (l.foldl (fun a c => addCode a c.codeSystemName c.code) acc) =
      keysOf acc ++ dedupSeen (keysOf acc) (l.map (fun c => c.codeSystemName)) := by
  induction l with
  | nil => intro acc; simp [dedupSeen]
  | cons c l ih =>
    intro acc
    rw [List.foldl_cons, ih, keysOf_addCode, List.map_cons, dedupSeen]
    by_cases hmem : c.codeSystemName ∈ keysOf acc
    · rw [if_pos hmem, if_pos hmem]
    · rw [if_neg hmem, if_neg hmem,
        dedupSeen_congr _ (keysOf acc ++ [c.codeSystemName]) (c.codeSystemName :: keysOf acc)
          (fun y => by simp [List.mem_append, List.mem_cons, or_comm]),
        List.append_assoc]
      rfl

theorem keysOf_groupCodes (l : List VsConcept) :
    keysOf (groupCodes l) = dedupFirst (l.map (fun c => c.codeSystemName)) := by
  unfold groupCodes dedupFirst
  rw [keysOf_foldl]
  rfl

theorem lkGroups_addCode (acc : List (String × List String)) (cs code s : String) :
    lkGroups (addCode acc cs code) s =
      if s = cs then lkGroups acc s ++ [code] else lkGroups acc s := by
  unfold addCode lkGroups
  cases hA : acc.any (fun p => p.1 = cs) with
  | true =>
    rw [if_pos rfl, List.find?_map]
    have hpred : (fun (p : String × List String) => decide (p.1 = s)) ∘
        (fun p => if p.1 = cs then (p.1, p.2 ++ [code]) else p) =
        (fun p => decide (p.1 = s)) := by
      funext p; dsimp only [Function.comp]; split <;> rfl
    rw [hpred]
    cases hf : acc.find? (fun p => decide (p.1 = s)) with
    | none =>
      have hsc : ¬ s = cs := by
        intro h
        subst h
        obtain ⟨p, hp, hpc⟩ := List.any_eq_true.mp hA
        exact List.find?_eq_none.mp hf p hp hpc
      simp [hsc]
    | some p0 =>
      have hdec := List.find?_some hf
      have hp0 : p0.1 = s := by simpa using hdec
      by_cases hsc : s = cs
      · subst hsc
        simp [hp0]
      · have hnc : ¬ p0.1 = cs := by rw [hp0]; exact hsc
        simp [hnc, hsc]
  | false =>
    have hmem : cs ∉ keysOf acc := fun c =>
      by rw [(any_key_iff acc cs).mpr c] at hA; exact Bool.noConfusion hA
    rw [if_neg (by simp), List.find?_append]
    by_cases hsc : s = cs
    · subst hsc
      have hnone : acc.find? (fun p => decide (p.1 = s)) = none := by
        rw [List.find?_eq_none]
        intro p hp hc
        refine hmem ?_
        rw [← of_decide_eq_true hc]
        exact List.mem_map_of_mem (fun q => q.1) hp
      rw [hnone]
      simp
    · cases hf : acc.find? (fun p => decide (p.1 = s)) with
      | some p0 => simp [hsc]
      | none =>
        have hne : ¬ ((cs, [code]).1 = s) := fun c => hsc c.symm
        simp [hsc, hne]

theorem lkGroups_foldl (l : List VsConcept) :
    ∀ acc s, lkGroups (l.foldl (fun a c => addCode a c.codeSystemName c.code) acc) s =
      lkGroups acc s ++ (l.filter (fun c => c.codeSystemName = s)).map (fun c => c.code) := by
  induction l with
  | nil => intro acc s; simp
  | cons c l ih =>
    intro acc s
    rw [List.foldl_cons, ih, lkGroups_addCode]
    by_cases hsc : s = c.codeSystemName
    · rw [if_pos hsc, List.filter_cons, if_pos (by simp [hsc]), List.map_cons,
        List.append_assoc]
      rfl
    · rw [if_neg hsc, List.filter_cons,
        if_neg (by simp; exact fun c2 => hsc c2.symm)]

theorem lkGroups_groupCodes (l : List VsConcept) (s : String) :
    lkGroups (groupCodes l) s =
      (l.filter (fun c => c.codeSystemName = s)).map (fun c => c.code) := by
  unfold groupCodes
  rw [lkGroups_foldl]
  rfl

theorem dedupSeen_nodup (l : List String) :
    ∀ seen, (dedupSeen seen l).Nodup ∧ ∀ x ∈ dedupSeen seen l, x ∉ seen := by
  induction l with
  | nil => intro seen; exact ⟨List.nodup_nil, by simp [dedupSeen]⟩
  | cons x xs ih =>
    intro seen
    by_cases hx : x ∈ seen
    · rw [dedupSeen, if_pos hx]
      exact ih seen
    · rw [dedupSeen, if_neg hx]
      obtain ⟨hnd, hns⟩ := ih (x :: seen)
      refine ⟨List.nodup_cons.mpr ⟨fun hmem => (hns x hmem) (List.mem_cons_self x seen), hnd⟩, ?_⟩
      intro y hy
      rcases List.mem_cons.mp hy with h1 | h2
      · exact h1 ▸ hx
      · exact fun hmem => hns y h2 (List.mem_cons_of_mem x hmem)

theorem groupCodes_keys_nodup (l : List VsConcept) : (keysOf (groupCodes l)).Nodup := by
  rw [keysOf_groupCodes]
  exact (dedupSeen_nodup (l.map (fun c => c.codeSystemName)) []).1

theorem find?_of_mem_nodupKeys (acc : List (String × List String))
    (hnd : (keysOf acc).Nodup) (p : String × List String) (hp : p ∈ acc) :
    acc.find? (fun q => q.1 = p.1) = some p := by
  induction acc with
  | nil => cases hp
  | cons q acc ih =>
    rcases List.mem_cons.mp hp with h1 | h2
    · subst h1
      simp [List.find?_cons]
    · have hnd2 : (keysOf acc).Nodup := (List.nodup_cons.mp hnd).2
      have hqp : ¬ (q.1 = p.1) := by
        intro hc
        refine (List.nodup_cons.mp hnd).1 ?_
        show q.1 ∈ List.map (fun r => r.1) acc
        rw [hc]
        exact List.mem_map_of_mem (fun r => r.1) h2
      rw [List.find?_cons_of_neg _ (by simp [hqp])]
      exact ih hnd2 h2

theorem mem_groupCodes_val (l : List VsConcept) (p : String × List String)
    (hp : p ∈ groupCodes l) :
    p.2 = (l.filter (fun c => c.codeSystemName = p.1)).map (fun c => c.code) := by
  have := find?_of_mem_nodupKeys (groupCodes l) (groupCodes_keys_nodup l) p hp
  have hlk : lkGroups (groupCodes l) p.1 = p.2 := by
    unfold lkGroups
    rw [this]
  rw [← hlk, lkGroups_groupCodes]

theorem addCode_ne_nil (acc : List (String × List String)) (cs code : String) :
    addCode acc cs code ≠ [] := by
  unfold addCode
  split
  · cases acc with
    | nil => simp at *
    | cons q acc => simp
  · simp

theorem foldl_addCode_ne_nil (l : List VsConcept) :
    ∀ acc, acc ≠ [] →
      l.foldl (fun a c => addCode a c.codeSystemName c.code) acc ≠ [] := by
  induction l with
  | nil => intro acc h; exact h
  | cons c l ih =>
    intro acc _
    rw [List.foldl_cons]
    exact ih _ (addCode_ne_nil acc c.codeSystemName c.code)

theorem groupCodes_eq_nil (l : List VsConcept) (h : groupCodes l = []) : l = [] := by
  cases l with
  | nil => rfl
  | cons c l =>
    exact absurd h (by
      unfold groupCodes
      rw [List.foldl_cons]
      exact foldl_addCode_ne_nil l _ (addCode_ne_nil [] c.codeSystemName c.code))

theorem mapOpt_some_fun {α β : Type} (f : α → β) (l : List α) :
    mapOpt (fun a => some (f a)) l = some (l.map f) := by
  induction l with
  | nil => rfl
  | cons a l ih => simp [mapOpt, ih]

/-- A record with concepts in two distinct code systems (and a third
concept re-using the first system). -/
def twoSystemRecord : VsacRecord :=
  { displayName := "Mixed", oid := "9.9.9", version := "2", source := "NLM",
    typ := "Grouping", revisionDate := "2021-05-05", purpose := asthmaPurpose,
    concepts := [⟨"111", "SNOMEDCT"⟩, ⟨"222", "ICD10CM"⟩, ⟨"333", "SNOMEDCT"⟩] }

/-- C3 (confirmed): whenever the flattener returns rows for a record, the
code-system column lists the distinct code-system names of the record
concepts, one row each, in first-appearance order; and each row codes
field is exactly the delimiter-join of the codes of the concepts naming
that row code system, in order. -/
theorem C3_one_row_per_code_system (nowFull delim : String) (v : VsacRecord)
    (rows : List CsvRow) (h : rowsForRecord nowFull delim v = some rows) :
    rows.map (fun r => r.codeSystem) =
      dedupFirst (v.concepts.map (fun c => c.codeSystemName)) ∧
    ∀ r ∈ rows, r.codes = pyJoin delim
      ((v.concepts.filter (fun c => c.codeSystemName = r.codeSystem)).map
        (fun c => c.code)) := by
  unfold rowsForRecord at h
  dsimp only at h
  cases hp3 : (pySplit v.purpose "),").get? 3 with
  | some p3 =>
    rw [hp3] at h
    simp only [Option.map_some'] at h
    rw [mapOpt_some_fun] at h
    have hrows : rows = (groupCodes v.concepts).map
        (mkCsvRow nowFull delim v (pySplit v.purpose "),")
          (groupCodes v.concepts) p3) := (Option.some.inj h).symm
    subst hrows
    constructor
    · rw [List.map_map]
      have : ((fun r => r.codeSystem) ∘
          mkCsvRow nowFull delim v (pySplit v.purpose "),")
            (groupCodes v.concepts) p3) =
          (fun (p : String × List String) => p.1) := by
        funext p; rfl
      rw [this]
      exact keysOf_groupCodes v.concepts
    · intro r hr
      obtain ⟨p, hp, hr2⟩ := List.mem_map.mp hr
      subst hr2
      have hcs : (mkCsvRow nowFull delim v (pySplit v.purpose "),")
          (groupCodes v.concepts) p3 p).codeSystem = p.1 := rfl
      rw [hcs]
      have hval := mem_groupCodes_val v.concepts p hp
      show pyJoin delim p.2 = _
      rw [hval]
  | none =>
    rw [hp3] at h
    simp only [Option.map_none'] at h
    cases hg : groupCodes v.concepts with
    | nil =>
      rw [hg] at h
      have hrows : rows = [] := (Option.some.inj h).symm
      have hc : v.concepts = [] := groupCodes_eq_nil v.concepts hg
      subst hrows
      rw [hc]
      exact ⟨rfl, by simp⟩
    | cons g gs =>
      rw [hg] at h
      exact absurd h (by simp [mapOpt])

/-- The current-time string used by the concrete flattener inputs. -/
def exNowFull : String := "2022-06-15 10:11:12.123456"

/-- The rows the flattener returns on the asthma example record. -/
def asthmaRows : List CsvRow := (rowsForRecord exNowFull "|" asthmaRecord).getD []

/-- C3 witness: the row theorem instantiated on the end-to-end example
record (one code system, codes 123 and 456, yielding one row with codes
123|456) together with the two-code-system count from the claim. -/
theorem C3_witness :
    rowsForRecord exNowFull "|" asthmaRecord = some asthmaRows ∧
    (asthmaRows.map (fun r => r.codeSystem) =
      dedupFirst (asthmaRecord.concepts.map (fun c => c.codeSystemName)) ∧
    ∀ r ∈ asthmaRows, r.codes = pyJoin "|"
      ((asthmaRecord.concepts.filter (fun c => c.codeSystemName = r.codeSystem)).map
        (fun c => c.code))) ∧
    (asthmaRows.length = 1 ∧
     asthmaRows.map (fun r => r.codes) = ["123|456"] ∧
     (rowsForRecord exNowFull "|" twoSystemRecord).map List.length = some 2 ∧
     (rowsForRecord exNowFull "|" twoSystemRecord).map
       (List.map (fun r => r.codes)) = some ["111|333", "222"]) :=
  ⟨by decide,
   C3_one_row_per_code_system exNowFull "|" asthmaRecord asthmaRows (by decide),
   by decide⟩

/-- C9 (confirmed): a record with an empty concept list contributes no
rows at all to the flattener output (the grouping dictionary stays empty,
so the row loop never runs), whatever its purpose text looks like. -/
theorem C9_empty_concepts_zero_rows (nowFull delim : String) (v : VsacRecord)
    (h : v.concepts = []) : rowsForRecord nowFull delim v = some [] := by
  unfold rowsForRecord
  rw [h]
  rfl

/-- A record with no concept entries and a purpose that does not even
parse into four clauses. -/
def emptyConceptRecord : VsacRecord :=
  { displayName := "Empty", oid := "0.0.1", version := "0", source := "X",
    typ := "Grouping", revisionDate := "2020-02-02",
    purpose := "no labeled clauses at all", concepts := [] }

/-- C9 witness: the empty-concepts theorem instantiated on a concrete
record whose purpose has no clauses. -/
theorem C9_witness :
    emptyConceptRecord.concepts = [] ∧
    rowsForRecord exNowFull "|" emptyConceptRecord = some [] :=
  ⟨rfl, C9_empty_concepts_zero_rows exNowFull "|" emptyConceptRecord rfl⟩

/-! ## Round-trip lemmas for the cache serialization -/

theorem decStr_encStr (s : String) (r : List Nat) :
    decStr (encStr s ++ r) = some (s, r) := by
  obtain ⟨l⟩ := s
  show (if l.length ≤ (l.map Char.toNat ++ r).length then
      some (String.mk (((l.map Char.toNat ++ r).take l.length).map Char.ofNat),
        (l.map Char.toNat ++ r).drop l.length)
    else none) = some (⟨l⟩, r)
  rw [if_pos (by rw [List.length_append, List.length_map]; exact Nat.le_add_right _ _),
    List.take_left' (List.length_map l Char.toNat),
    List.drop_left' (List.length_map l Char.toNat),
    List.map_map]
  have hid : List.map (Char.ofNat ∘ Char.toNat) l = l := by
    simp only [Function.comp_def, Char.ofNat_toNat, List.map_id']
  rw [hid]

theorem decListAux_encList {α : Type} (enc : α → List Nat)
    (dec : List Nat → Option (α × List Nat))
    (h : ∀ a r, dec (enc a ++ r) = some (a, r)) (l : List α) (r : List Nat) :
    decListAux dec l.length ((l.map enc).flatten ++ r) = some (l, r) := by
  induction l with
  | nil => rfl
  | cons a l ih =>
    show decListAux dec (l.length + 1) ((enc a ++ (l.map enc).flatten) ++ r) = _
    rw [List.append_assoc]
    show (dec (enc a ++ ((l.map enc).flatten ++ r))).bind _ = _
    rw [h a ((l.map enc).flatten ++ r)]
    show (decListAux dec l.length ((l.map enc).flatten ++ r)).map _ = _
    rw [ih]
    rfl

theorem decConcept_encConcept (c : VsConcept) (r : List Nat) :
    decConcept (encConcept c ++ r) = some (c, r) := by
  unfold decConcept encConcept
  simp only [List.append_assoc, decStr_encStr, Option.some_bind, Option.map_some']

theorem decRecord_encRecord (v : VsacRecord) (r : List Nat) :
    decRecord (encRecord v ++ r) = some (v, r) := by
  unfold decRecord encRecord encList
  simp only [List.append_assoc, List.cons_append, decStr_encStr, Option.some_bind,
    decListAux_encList encConcept decConcept decConcept_encConcept, Option.map_some']

/-- C8 (confirmed, modelled from the spec): serializing a record list to
the cache file and deserializing it back yields the very same list. -/
theorem C8_pickle_roundtrip (vs : List VsacRecord) :
    pickle_load (pickle_dump vs) = some vs := by
  unfold pickle_load pickle_dump encList
  show (decListAux decRecord vs.length ((vs.map encRecord).flatten)).map _ = _
  rw [← List.append_nil (vs.map encRecord).flatten,
    decListAux_encList encRecord decRecord decRecord_encRecord]
  rfl

/-! ## Path-splitting lemmas for the ticket-granting extraction -/

theorem splitListOn_ne_nil (sep : Char) (l : List Char) : splitListOn sep l ≠ [] := by
  cases l with
  | nil => simp [splitListOn]
  | cons c cs =>
    unfold splitListOn
    by_cases h : c = sep
    · simp [h]
    · rw [if_neg h]
      cases splitListOn sep cs <;> simp

theorem splitListOn_no_sep (sep : Char) (l : List Char) :
    ∀ g ∈ splitListOn sep l, sep ∉ g := by
  induction l with
  | nil =>
    intro g hg
    have hg2 : g = [] := by simpa [splitListOn] using hg
    subst hg2
    simp
  | cons c cs ih =>
    intro g hg
    unfold splitListOn at hg
    by_cases h : c = sep
    · rw [if_pos h] at hg
      rcases List.mem_cons.mp hg with h1 | h2
      · subst h1; simp
      · exact ih g h2
    · rw [if_neg h] at hg
      cases hs : splitListOn sep cs with
      | nil => exact absurd hs (splitListOn_ne_nil sep cs)
      | cons g0 gs =>
        rw [hs] at hg
        rcases List.mem_cons.mp hg with h1 | h2
        · subst h1
          intro hmem
          rcases List.mem_cons.mp hmem with hh | hh
          · exact h hh.symm
          · exact ih g0 (by rw [hs]; exact List.mem_cons_self g0 gs) hh
        · exact ih g (by rw [hs]; exact List.mem_cons_of_mem g0 h2)

theorem splitListOn_of_no_sep (sep : Char) (g : List Char) (h : sep ∉ g) :
    splitListOn sep g = [g] := by
  induction g with
  | nil => rfl
  | cons c g ih =>
    have hc : ¬ c = sep := by
      intro hc
      subst hc
      exact h (List.mem_cons_self c g)
    unfold splitListOn
    rw [if_neg hc, ih (fun hm => h (List.mem_cons_of_mem c hm))]

theorem splitListOn_cons (sep c : Char) (cs : List Char) :
    splitListOn sep (c :: cs) =
      if c = sep then [] :: splitListOn sep cs
      else
        match splitListOn sep cs with
        | [] => [[c]]
        | g :: gs => (c :: g) :: gs := rfl

theorem splitListOn_append_sep (sep : Char) (g t : List Char) (h : sep ∉ g) :
    splitListOn sep (g ++ sep :: t) = g :: splitListOn sep t := by
  induction g with
  | nil =>
    show splitListOn sep (sep :: t) = [] :: splitListOn sep t
    rw [splitListOn_cons, if_pos rfl]
  | cons c g ih =>
    have hc : ¬ c = sep := by
      intro hc
      subst hc
      exact h (List.mem_cons_self c g)
    show splitListOn sep (c :: (g ++ sep :: t)) = (c :: g) :: splitListOn sep t
    rw [splitListOn_cons, if_neg hc, ih (fun hm => h (List.mem_cons_of_mem c hm))]

theorem splitListOn_joinSepChar (sep : Char) (gs : List (List Char))
    (hno : ∀ g ∈ gs, sep ∉ g) (hne : gs ≠ []) :
    splitListOn sep (joinSepChar sep gs) = gs := by
  induction gs with
  | nil => exact absurd rfl hne
  | cons g gs ih =>
    cases gs with
    | nil =>
      show splitListOn sep g = [g]
      exact splitListOn_of_no_sep sep g (hno g (List.mem_cons_self g []))
    | cons g2 gs2 =>
      show splitListOn sep (g ++ sep :: joinSepChar sep (g2 :: gs2)) = g :: g2 :: gs2
      rw [splitListOn_append_sep sep g _ (hno g (List.mem_cons_self _ _)),
        ih (fun x hx => hno x (List.mem_cons_of_mem g hx)) (by simp)]

theorem joinSepChar_concat (sep : Char) (init : List (List Char))
    (lastg : List Char) (h : init ≠ []) :
    joinSepChar sep (init ++ [lastg]) = joinSepChar sep init ++ sep :: lastg := by
  induction init with
  | nil => exact absurd rfl h
  | cons g gs ih =>
    cases gs with
    | nil => rfl
    | cons g2 gs2 =>
      show g ++ sep :: joinSepChar sep ((g2 :: gs2) ++ [lastg]) =
        (g ++ sep :: joinSepChar sep (g2 :: gs2)) ++ sep :: lastg
      rw [ih (by simp), List.append_assoc]
      rfl

/-- C7 (confirmed): for an authentication response whose HTML body holds
a form whose action URL has a parseable path, the ticket extraction
returns exactly the final path segment: the slash-free suffix of the path
after its last slash. -/
theorem C7_tgt_last_path_segment (r : AuthResponse) (u p : String)
    (h1 : r.formAction = some u) (h2 : urlPath u = some p) :
    ∃ s pre, get_ticket_granting_ticket r = some s ∧
      p.data = pre ++ '/' :: s.data ∧ '/' ∉ s.data := by
  have hres : get_ticket_granting_ticket r =
      (urlPath u).map (fun q => String.mk ((splitListOn '/' q.data).getLastD [])) := by
    unfold get_ticket_granting_ticket
    rw [h1]
    rfl
  rw [h2] at hres
  unfold urlPath at h2
  cases hE : splitListOn '/' (urlBase u).data with
  | nil => rw [hE] at h2; simp at h2
  | cons g rest =>
    cases rest with
    | nil => rw [hE] at h2; simp at h2
    | cons g2 rest2 =>
      rw [hE] at h2
      have hp : p = String.mk ('/' :: joinSepChar '/' (g2 :: rest2)) :=
        (Option.some.inj h2).symm
      subst hp
      have hno : ∀ x ∈ g2 :: rest2, '/' ∉ x := fun x hx =>
        splitListOn_no_sep '/' (urlBase u).data x
          (by rw [hE]; exact List.mem_cons_of_mem g hx)
      have hsplit : splitListOn '/' ('/' :: joinSepChar '/' (g2 :: rest2)) =
          [] :: (g2 :: rest2) := by
        have h0 := splitListOn_append_sep '/' [] (joinSepChar '/' (g2 :: rest2))
          (by simp)
        rw [List.nil_append] at h0
        rw [h0, splitListOn_joinSepChar '/' (g2 :: rest2) hno (by simp)]
      rcases List.eq_nil_or_concat (g2 :: rest2) with hnil | ⟨init, lastg, hconc⟩
      · exact absurd hnil (by simp)
      · rw [List.concat_eq_append] at hconc
        have hlastmem : lastg ∈ g2 :: rest2 := by
          rw [hconc]
          exact List.mem_append_right init (List.mem_cons_self lastg [])
        have hnolast : '/' ∉ lastg := hno lastg hlastmem
        have hlast : (([] : List Char) :: (g2 :: rest2)).getLastD [] = lastg := by
          rw [hconc]
          show ((([] : List Char) :: init) ++ [lastg]).getLastD [] = lastg
          rw [List.getLastD_eq_getLast?, List.getLast?_concat]
          rfl
        have hticket : get_ticket_granting_ticket r = some (String.mk lastg) := by
          rw [hres]
          show some (String.mk ((splitListOn '/'
            ('/' :: joinSepChar '/' (g2 :: rest2))).getLastD [])) = _
          rw [hsplit, hlast]
        by_cases hinit : init = []
        · subst hinit
          have hsingle : g2 :: rest2 = [lastg] := by simpa using hconc
          refine ⟨String.mk lastg, [], hticket, ?_, hnolast⟩
          show ('/' :: joinSepChar '/' (g2 :: rest2)) = [] ++ '/' :: lastg
          rw [hsingle]
          rfl
        · refine ⟨String.mk lastg, '/' :: joinSepChar '/' init, hticket, ?_, hnolast⟩
          show ('/' :: joinSepChar '/' (g2 :: rest2)) =
            ('/' :: joinSepChar '/' init) ++ '/' :: lastg
          rw [hconc, joinSepChar_concat '/' init lastg hinit]
          rfl

/-- A concrete authentication response: the CAS endpoint returns a form
whose action URL ends in the ticket-granting ticket. -/
def authRespEx : AuthResponse :=
  { formAction := some "https://utslogin.nlm.nih.gov/cas/v1/api-key/TGT-123-abcde" }

/-- C7 witness: the extraction theorem instantiated on a concrete CAS
response, together with the concrete extracted ticket. -/
theorem C7_witness :
    (authRespEx.formAction =
        some "https://utslogin.nlm.nih.gov/cas/v1/api-key/TGT-123-abcde" ∧
     urlPath "https://utslogin.nlm.nih.gov/cas/v1/api-key/TGT-123-abcde" =
        some "/cas/v1/api-key/TGT-123-abcde") ∧
    (∃ s pre, get_ticket_granting_ticket authRespEx = some s ∧
      ("/cas/v1/api-key/TGT-123-abcde" : String).data = pre ++ '/' :: s.data ∧
      '/' ∉ s.data) ∧
    get_ticket_granting_ticket authRespEx = some "TGT-123-abcde" :=
  ⟨⟨rfl, by decide⟩,
   C7_tgt_last_path_segment authRespEx "https://utslogin.nlm.nih.gov/cas/v1/api-key/TGT-123-abcde"
     "/cas/v1/api-key/TGT-123-abcde" rfl (by decide),
   by decide⟩
